import Mathlib

/-!
Shallow embedding of the RBAC access-resolution engine of kubectl-who-can.

The first part embeds `pkg/cmd/resource_resolver.go`: the discovery client
is modelled as a record of (pure) response functions, the Go
`map[string]v1.APIResource` as an association list in which later
insertions shadow earlier ones, and every fallible Go function as an
`Except String` computation carrying the exact error strings of the source.

The second part models the policy rule matcher and the role reference
index, whose implementation is exercised by the repository tests.
-/

set_option autoImplicit false

namespace KubectlWhoCan

/-- One entry of a discovery `APIResourceList`: the canonical plural name,
the short names and the supported verbs of an API resource. -/
structure APIResource where
  name : String
  shortNames : List String
  verbs : List String
deriving DecidableEq, Repr

/-- One discovery `APIGroup`: the group versions it advertises and the
group version marked as preferred. -/
structure APIGroup where
  versions : List String
  preferredVersion : String
deriving DecidableEq, Repr

/-- The discovery interface used by the resolver: `ServerGroups` and
`ServerResourcesForGroupVersion`, each either failing at the transport
level or returning its payload. -/
structure DiscoveryClient where
  serverGroups : Except String (List APIGroup)
  serverResourcesForGroupVersion : String → Except String (List APIResource)

/-- The REST mapper interface: `ResourceFor` maps a bare resource token to
a canonical resource name or fails. -/
abbrev RESTMapper : Type := String → Except String String

/-- `rbac.VerbAll`. -/
def VerbAll : String := "*"

/-- `rbac.ResourceAll`. -/
def ResourceAll : String := "*"

/-- The `map[string]v1.APIResource` index, modelled as an association list:
an insertion prepends, a lookup takes the first hit, so the latest
insertion for a key wins, as in a Go map overwrite. -/
abbrev Index : Type := List (String × APIResource)

/-- Go map assignment `index[k] = v`. -/
def mapInsert (m : Index) (k : String) (v : APIResource) : Index :=
  (k, v) :: m

/-- Go map lookup `index[k]`: the most recently inserted binding of `k`. -/
def mapLookup (m : Index) (k : String) : Option APIResource :=
  (List.find? (fun p => p.1 == k) m).map Prod.snd

/-- The inner loop body of `indexResources`: register a resource under its
plural name and under each of its short names. -/
def insertResource (m : Index) (res : APIResource) : Index :=
  res.shortNames.foldl (fun m sn => mapInsert m sn res) (mapInsert m res.name res)

/-- The version loop of `indexResources` over one group: only the
group's preferred version is fetched and indexed; a transport failure is
wrapped as "getting resources for API group" and returned at once, as the
Go loop's early `return` does. -/
def indexVersions (client : DiscoveryClient) (sg : APIGroup) (m : Index) :
    List String → Except String Index
  | [] => .ok m
  | v :: vl =>
    if v == sg.preferredVersion then
      match client.serverResourcesForGroupVersion v with
      | .error e => .error ("getting resources for API group: " ++ e)
      | .ok rsList => indexVersions client sg (rsList.foldl insertResource m) vl
    else
      indexVersions client sg m vl

/-- The group loop of `indexResources`. -/
def indexGroups (client : DiscoveryClient) (m : Index) :
    List APIGroup → Except String Index
  | [] => .ok m
  | sg :: gs =>
    match indexVersions client sg m sg.versions with
    | .error e => .error e
    | .ok m2 => indexGroups client m2 gs

/-- `resourceResolver.indexResources`: build the lookup index over every
group's preferred version; a `ServerGroups` transport failure is wrapped
as "getting API groups". -/
def indexResources (client : DiscoveryClient) : Except String Index :=
  match client.serverGroups with
  | .error e => .error ("getting API groups: " ++ e)
  | .ok groups => indexGroups client [] groups

/-- `resourceResolver.lookupResource`: a direct index hit, else the REST
mapper fallback followed by a second index lookup, else "not found". -/
def lookupResource (mapper : RESTMapper) (index : Index) (resourceArg : String) :
    Except String APIResource :=
  match mapLookup index resourceArg with
  | some resource => .ok resource
  | none =>
    match mapper resourceArg with
    | .error e => .error e
    | .ok gvrResource =>
      match mapLookup index gvrResource with
      | some resource => .ok resource
      | none => .error ("not found \"" ++ resourceArg ++ "\"")

/-- `resourceResolver.lookupSubResource`: a plain index lookup of the
compound `parent/subResource` key. -/
def lookupSubResource (index : Index) (subResource : String) :
    Except String APIResource :=
  match mapLookup index subResource with
  | some apiResource => .ok apiResource
  | none => .error ("not found \"" ++ subResource ++ "\"")

/-- `resourceResolver.resourceFor`: build the index, look the resource up,
and when a sub-resource is requested re-look-up `<canonicalName>/<sub>`. -/
def resourceFor (client : DiscoveryClient) (mapper : RESTMapper)
    (resourceArg subResource : String) : Except String APIResource :=
  match indexResources client with
  | .error e => .error e
  | .ok index =>
    match lookupResource mapper index resourceArg with
    | .error e => .error e
    | .ok apiResource =>
      if subResource ≠ "" then
        lookupSubResource index (apiResource.name ++ "/" ++ subResource)
      else
        .ok apiResource

/-- `resourceResolver.isVerbSupportedBy`, with the source's linear scan
kept as a fold. -/
def isVerbSupportedBy (verb : String) (resource : APIResource) : Bool :=
  if verb == VerbAll then
    true
  else
    resource.verbs.foldl (fun supported v => if v == verb then true else supported) false

/-- Go's `%v` rendering of a `[]string`, used in the verb error message. -/
def formatStringSlice (l : List String) : String :=
  "[" ++ String.intercalate " " l ++ "]"

/-- The error `Resolve` reports when `resourceFor` fails, named after the
original resource token (with `/subResource` appended when supplied). -/
def noResourceTypeErr (name : String) : String :=
  "the server doesn\x27t have a resource type \"" ++ name ++ "\""

/-- The error `Resolve` reports when the resolved descriptor does not
advertise the requested verb. -/
def verbNotSupportedErr (resourceName verb : String) (verbs : List String) : String :=
  "the \"" ++ resourceName ++ "\" resource does not support the \"" ++ verb ++
    "\" verb, only " ++ formatStringSlice verbs

/-- `resourceResolver.Resolve`. -/
def Resolve (client : DiscoveryClient) (mapper : RESTMapper)
    (verb resource subResource : String) : Except String String :=
  if resource == ResourceAll then
    .ok resource
  else
    match resourceFor client mapper resource subResource with
    | .error _ =>
      let name := if subResource ≠ "" then resource ++ "/" ++ subResource else resource
      .error (noResourceTypeErr name)
    | .ok apiResource =>
      if !isVerbSupportedBy verb apiResource then
        .error (verbNotSupportedErr apiResource.name verb apiResource.verbs)
      else
        .ok apiResource.name

/-- Modelled from the spec: the `AuthorizationRule` carried by a Role or
ClusterRole (`rbac.PolicyRule`), with verbs, resources, resourceNames and
nonResourceURLs; the implementation of `whoCan.policyRuleMatches` is not
part of the sources at hand, only its test table is. -/
structure PolicyRule where
  verbs : List String
  resources : List String
  resourceNames : List String
  nonResourceURLs : List String
deriving DecidableEq, Repr

/-- Modelled from the spec: the `ResourceQuery` fields of the `whoCan`
action under evaluation (verb, canonical resource, optional resource name,
optional non-resource URL; an absent optional field is the empty string). -/
structure ActionQuery where
  verb : String
  resource : String
  resourceName : String
  nonResourceURL : String
deriving DecidableEq, Repr

/-- Modelled from the spec: `whoCan.policyRuleMatches`. Two disjoint
modes selected by whether the query carries a non-resource URL. In
non-resource mode the rule matches iff the verb is listed (or the verb
wildcard is) and the URL is listed (or the wildcard is); the rule's
resources and resourceNames are ignored. In resource mode the rule
matches iff the verb is listed-or-wildcard, the resource is
listed-or-wildcard, and resourceNames is empty or contains the query's
resourceName verbatim. -/
def policyRuleMatches (q : ActionQuery) (rule : PolicyRule) : Bool :=
  if q.nonResourceURL ≠ "" then
    (rule.verbs.contains q.verb || rule.verbs.contains VerbAll) &&
      (rule.nonResourceURLs.contains q.nonResourceURL || rule.nonResourceURLs.contains VerbAll)
  else
    (rule.verbs.contains q.verb || rule.verbs.contains VerbAll) &&
      (rule.resources.contains q.resource || rule.resources.contains ResourceAll) &&
      (rule.resourceNames.isEmpty || rule.resourceNames.contains q.resourceName)

/-- Modelled from the spec: a `RoleIdentity`, the composite key of the
role reference index (`role` in the sources' test `TestMatch`): the
role's name together with the flag telling a cluster-scoped ClusterRole
from a namespaced Role. -/
structure RoleIdentity where
  name : String
  isClusterRole : Bool
deriving DecidableEq, Repr

/-- Modelled from the spec: a binding's `rbac.RoleRef` as far as the
index consults it: the referenced kind and name. -/
structure RoleRef where
  kind : String
  name : String
deriving DecidableEq, Repr

/-- Modelled from the spec: the role reference index (`roles` in the
sources' test `TestMatch`), a set of `RoleIdentity` values; modelled as
the list of inserted identities, membership ignoring order and
multiplicity. -/
abbrev RolesIndex : Type := List RoleIdentity

/-- Modelled from the spec: `roles.match`: the index contains an identity
whose name equals the reference's name and whose cluster-scope flag
equals "the reference's kind is the literal ClusterRole". -/
def matchRoleRef (r : RolesIndex) (rr : RoleRef) : Bool :=
  r.any (fun e => e.name == rr.name && e.isClusterRole == (rr.kind == "ClusterRole"))

/-! ### Vocabulary for stating index properties -/

/-- The keys under which `insertResource` registers a resource: its
canonical plural name and its short names. -/
def keyList (r : APIResource) : List String :=
  r.name :: r.shortNames

/-- The resource list a successful fetch of group version `v` returns
(empty when the fetch fails; `indexResources` then fails before indexing). -/
def fetchedResources (client : DiscoveryClient) (v : String) : List APIResource :=
  match client.serverResourcesForGroupVersion v with
  | .ok rs => rs
  | .error _ => []

/-- The resources `indexResources` enumerates for one group, in order:
those of each listed version equal to the group's preferred version. -/
def groupResources (client : DiscoveryClient) (sg : APIGroup) : List APIResource :=
  sg.versions.flatMap fun v =>
    if v == sg.preferredVersion then fetchedResources client v else []

/-- The resources `indexResources` enumerates over all groups, in
processing order. -/
def enumeratedResources (client : DiscoveryClient) (gs : List APIGroup) :
    List APIResource :=
  gs.flatMap (groupResources client)

/-! ### Lemmas about the index -/

theorem mapLookup_nil (k : String) : mapLookup [] k = none := rfl

theorem mapLookup_insert (m : Index) (k' k : String) (v : APIResource) :
    mapLookup (mapInsert m k' v) k = if k' = k then some v else mapLookup m k := by
  by_cases h : k' = k
  · simp [mapLookup, mapInsert, List.find?_cons_of_pos, h]
  · have hb : ((k', v).1 == k) = false := by simp [h]
    simp [mapLookup, mapInsert, List.find?_cons_of_neg, h, hb]

theorem mapLookup_foldl_mapInsert (r : APIResource) (k : String) :
    ∀ (sns : List String) (m : Index),
      mapLookup (sns.foldl (fun m sn => mapInsert m sn r) m) k =
        if k ∈ sns then some r else mapLookup m k := by
  intro sns
  induction sns with
  | nil => intro m; simp
  | cons sn sns ih =>
    intro m
    rw [List.foldl_cons, ih, mapLookup_insert]
    by_cases h1 : k ∈ sns
    · simp [h1, List.mem_cons]
    · by_cases h2 : sn = k
      · simp [h1, h2, List.mem_cons]
      · have h3 : k ∉ sn :: sns := by
          simp only [List.mem_cons, not_or]
          exact ⟨fun hks => h2 hks.symm, h1⟩
        simp [h1, h2, h3]

theorem mapLookup_insertResource (m : Index) (r : APIResource) (k : String) :
    mapLookup (insertResource m r) k =
      if k ∈ keyList r then some r else mapLookup m k := by
  unfold insertResource
  rw [mapLookup_foldl_mapInsert, mapLookup_insert]
  by_cases h1 : k ∈ r.shortNames
  · simp [h1, keyList, List.mem_cons]
  · by_cases h2 : r.name = k
    · simp [h1, h2, keyList, List.mem_cons]
    · have h3 : k ∉ keyList r := by
        simp only [keyList, List.mem_cons, not_or]
        exact ⟨fun hk => h2 hk.symm, h1⟩
      simp [h1, h2, h3]

theorem mapLookup_foldl_insertResource_of_not_mem (k : String) :
    ∀ (rs : List APIResource) (m : Index), (∀ r ∈ rs, k ∉ keyList r) →
      mapLookup (rs.foldl insertResource m) k = mapLookup m k := by
  intro rs
  induction rs with
  | nil => intro m _; rfl
  | cons r rs ih =>
    intro m h
    rw [List.foldl_cons, ih _ fun r' hr' => h r' (List.mem_cons_of_mem _ hr'),
      mapLookup_insertResource]
    simp [h r (List.mem_cons_self _ _)]

theorem mapLookup_foldl_insertResource_last (xs ys : List APIResource) (r : APIResource)
    (m : Index) (k : String) (hk : k ∈ keyList r) (hys : ∀ r' ∈ ys, k ∉ keyList r') :
    mapLookup ((xs ++ r :: ys).foldl insertResource m) k = some r := by
  rw [List.foldl_append, List.foldl_cons,
    mapLookup_foldl_insertResource_of_not_mem k ys _ hys, mapLookup_insertResource]
  simp [hk]

theorem mapLookup_foldl_insertResource_mem (k : String) (d : APIResource) :
    ∀ (rs : List APIResource) (m : Index),
      mapLookup (rs.foldl insertResource m) k = some d →
      d ∈ rs ∨ mapLookup m k = some d := by
  intro rs
  induction rs with
  | nil => intro m h; exact Or.inr h
  | cons r rs ih =>
    intro m h
    rw [List.foldl_cons] at h
    rcases ih _ h with hmem | hrest
    · exact Or.inl (List.mem_cons_of_mem _ hmem)
    · rw [mapLookup_insertResource] at hrest
      by_cases hkey : k ∈ keyList r
      · rw [if_pos hkey] at hrest
        injection hrest with hrd
        subst hrd
        exact Or.inl (List.mem_cons_self _ _)
      · rw [if_neg hkey] at hrest
        exact Or.inr hrest

/-- A successful run of the version loop folds exactly the preferred
version's resources, in order, into the accumulator. -/
theorem indexVersions_ok (client : DiscoveryClient) (sg : APIGroup) :
    ∀ (vl : List String) (m m' : Index),
      indexVersions client sg m vl = .ok m' →
      m' = ((vl.flatMap fun v =>
        if v == sg.preferredVersion then fetchedResources client v else []).foldl
          insertResource m) := by
  intro vl
  induction vl with
  | nil =>
    intro m m' h
    simp only [indexVersions] at h
    cases h
    simp
  | cons v vl ih =>
    intro m m' h
    simp only [indexVersions] at h
    by_cases hp : (v == sg.preferredVersion) = true
    · rw [if_pos hp] at h
      cases hf : client.serverResourcesForGroupVersion v with
      | error e => rw [hf] at h; cases h
      | ok rs =>
        rw [hf] at h
        have h2 := ih _ _ h
        have hfr : fetchedResources client v = rs := by simp [fetchedResources, hf]
        rw [List.flatMap_cons, List.foldl_append, if_pos hp, hfr]
        exact h2
    · rw [if_neg hp] at h
      have h2 := ih _ _ h
      rw [List.flatMap_cons, List.foldl_append, if_neg hp]
      exact h2

/-- A successful run of the group loop folds exactly the enumerated
resources, in order, into the accumulator. -/
theorem indexGroups_ok (client : DiscoveryClient) :
    ∀ (gs : List APIGroup) (m m' : Index),
      indexGroups client m gs = .ok m' →
      m' = (enumeratedResources client gs).foldl insertResource m := by
  intro gs
  induction gs with
  | nil =>
    intro m m' h
    simp only [indexGroups] at h
    cases h
    simp [enumeratedResources]
  | cons sg gs ih =>
    intro m m' h
    simp only [indexGroups] at h
    cases hv : indexVersions client sg m sg.versions with
    | error e => rw [hv] at h; cases h
    | ok m2 =>
      rw [hv] at h
      have h2 := ih _ _ h
      have h1 := indexVersions_ok client sg sg.versions m m2 hv
      rw [h2, h1]
      simp [enumeratedResources, List.flatMap_cons, List.foldl_append, groupResources]

/-- A successful `indexResources` run produces the fold of the enumerated
resources over the empty index. -/
theorem indexResources_ok (client : DiscoveryClient) (gs : List APIGroup) (idx : Index)
    (hg : client.serverGroups = .ok gs) (h : indexResources client = .ok idx) :
    idx = (enumeratedResources client gs).foldl insertResource [] := by
  unfold indexResources at h
  rw [hg] at h
  exact indexGroups_ok client gs [] idx h

/-! ### Lemmas about the verb check -/

theorem foldl_verb_scan (verb : String) :
    ∀ (vs : List String) (b : Bool),
      vs.foldl (fun supported v => if v == verb then true else supported) b =
        (b || decide (verb ∈ vs)) := by
  intro vs
  induction vs with
  | nil => intro b; simp
  | cons v vs ih =>
    intro b
    rw [List.foldl_cons, ih]
    by_cases h : v = verb
    · subst h
      simp [List.mem_cons]
    · have hb : (v == verb) = false := by simp [h]
      have hnv : ¬verb = v := fun hh => h hh.symm
      simp [hb, List.mem_cons, hnv]

theorem isVerbSupportedBy_iff (verb : String) (r : APIResource) :
    isVerbSupportedBy verb r = true ↔ verb = VerbAll ∨ verb ∈ r.verbs := by
  unfold isVerbSupportedBy
  by_cases h : verb = VerbAll
  · simp [h]
  · have hb : (verb == VerbAll) = false := by simp [h]
    rw [foldl_verb_scan]
    simp [hb, h]

end KubectlWhoCan

deriving instance DecidableEq for Except

namespace KubectlWhoCan

/-! ### Concrete discovery fixtures -/

/-- One group at preferred version v1 exposing persistentvolumes, pods,
the pods/log sub-resource and services (scenario of the repository's
`TestComplete` resolutions). -/
def fixtureClient : DiscoveryClient :=
  { serverGroups := .ok [⟨["v1"], "v1"⟩]
    serverResourcesForGroupVersion := fun gv =>
      if gv == "v1" then
        .ok [⟨"persistentvolumes", ["pv"], ["get", "list", "delete"]⟩,
             ⟨"pods", ["po"], ["get", "list"]⟩,
             ⟨"pods/log", [], ["get"]⟩,
             ⟨"services", ["svc"], ["get", "list"]⟩]
      else .error "no such group version" }

/-- The index `indexResources` builds for `fixtureClient`. -/
def fixtureIndex : Index :=
  [("svc", ⟨"services", ["svc"], ["get", "list"]⟩),
   ("services", ⟨"services", ["svc"], ["get", "list"]⟩),
   ("pods/log", ⟨"pods/log", [], ["get"]⟩),
   ("po", ⟨"pods", ["po"], ["get", "list"]⟩),
   ("pods", ⟨"pods", ["po"], ["get", "list"]⟩),
   ("pv", ⟨"persistentvolumes", ["pv"], ["get", "list", "delete"]⟩),
   ("persistentvolumes", ⟨"persistentvolumes", ["pv"], ["get", "list", "delete"]⟩)]

/-- A REST mapper that recognizes no token. -/
def failMapper : RESTMapper := fun _ => .error "no mapping"

/-- Two resources of one group sharing the short name "fk". -/
def collisionClient : DiscoveryClient :=
  { serverGroups := .ok [⟨["v1"], "v1"⟩]
    serverResourcesForGroupVersion := fun gv =>
      if gv == "v1" then
        .ok [⟨"firstkinds", ["fk"], ["get"]⟩,
             ⟨"secondkinds", ["fk"], ["get"]⟩]
      else .error "no such group version" }

/-- The index `indexResources` builds for `collisionClient`: the key "fk"
is bound to the descriptor inserted last. -/
def collisionIndex : Index :=
  [("fk", ⟨"secondkinds", ["fk"], ["get"]⟩),
   ("secondkinds", ⟨"secondkinds", ["fk"], ["get"]⟩),
   ("fk", ⟨"firstkinds", ["fk"], ["get"]⟩),
   ("firstkinds", ⟨"firstkinds", ["fk"], ["get"]⟩)]

/-- One group advertising v1beta1 and v1, preferring v1; each version
exposes a different resource. -/
def twoVersionClient : DiscoveryClient :=
  { serverGroups := .ok [⟨["v1beta1", "v1"], "v1"⟩]
    serverResourcesForGroupVersion := fun gv =>
      if gv == "v1" then .ok [⟨"widgets", ["wd"], ["get"]⟩]
      else if gv == "v1beta1" then .ok [⟨"oldwidgets", ["ow"], ["get"]⟩]
      else .error "no such group version" }

/-- A client whose `ServerGroups` call fails at the transport level. -/
def brokenClient : DiscoveryClient :=
  { serverGroups := .error "connection refused"
    serverResourcesForGroupVersion := fun _ => .error "connection refused" }

example : indexResources fixtureClient = .ok fixtureIndex := by decide
example : indexResources collisionClient = .ok collisionIndex := by decide
example : indexResources twoVersionClient =
    .ok [("wd", ⟨"widgets", ["wd"], ["get"]⟩), ("widgets", ⟨"widgets", ["wd"], ["get"]⟩)] := by
  decide

/-! ### The repository's own test tables, replayed against the model -/

example : Resolve fixtureClient failMapper "delete" "pv" "" = .ok "persistentvolumes" := by
  decide

example : policyRuleMatches ⟨"get", "services", "", ""⟩ ⟨["get", "list"], ["services"], [], []⟩ = true := by decide
example : policyRuleMatches ⟨"get", "services", "", ""⟩ ⟨["get", "list"], ["*"], [], []⟩ = true := by decide
example : policyRuleMatches ⟨"get", "services", "", ""⟩ ⟨["*"], ["services"], [], []⟩ = true := by decide
example : policyRuleMatches ⟨"get", "services", "mongodb", ""⟩ ⟨["get", "list"], ["services"], [], []⟩ = true := by decide
example : policyRuleMatches ⟨"get", "services", "mongodb", ""⟩ ⟨["get", "list"], ["services"], ["mongodb", "nginx"], []⟩ = true := by decide
example : policyRuleMatches ⟨"get", "services", "mongodb", ""⟩ ⟨["get", "list"], ["services"], ["nginx"], []⟩ = false := by decide
example : policyRuleMatches ⟨"get", "services", "", ""⟩ ⟨["get", "list"], ["services"], ["nginx"], []⟩ = false := by decide
example : policyRuleMatches ⟨"get", "pods", "", ""⟩ ⟨["create"], ["pods"], [], []⟩ = false := by decide
example : policyRuleMatches ⟨"get", "persistentvolumes", "", ""⟩ ⟨["get"], ["pods"], [], []⟩ = false := by decide
example : policyRuleMatches ⟨"get", "", "", "/logs"⟩ ⟨["get"], [], [], ["/logs"]⟩ = true := by decide
example : policyRuleMatches ⟨"get", "", "", "/logs"⟩ ⟨["post"], [], [], ["/logs"]⟩ = false := by decide
example : policyRuleMatches ⟨"get", "", "", "/logs"⟩ ⟨["get"], [], [], ["/api"]⟩ = false := by decide

example : matchRoleRef [⟨"hello", false⟩] ⟨"Something else", "hello"⟩ = true := by decide
example : matchRoleRef [⟨"hello", false⟩] ⟨"ClusterRole", "hello"⟩ = false := by decide

/-! ### Claim theorems -/

/-- C7: for every resolved descriptor the verb check passes iff the
requested verb is the wildcard or a member of the descriptor's verb set;
`Resolve` with the wildcard verb succeeds whenever the resource itself
resolves, regardless of its advertised verbs, and a non-wildcard verb
absent from the verb set makes `Resolve` fail with the error naming the
resolved resource, the rejected verb and the full supported verb list. -/
theorem resolve_verb_check (client : DiscoveryClient) (mapper : RESTMapper)
    (verb res sub : String) (d : APIResource)
    (hstar : res ≠ ResourceAll)
    (hres : resourceFor client mapper res sub = .ok d) :
    (isVerbSupportedBy verb d = true ↔ verb = VerbAll ∨ verb ∈ d.verbs) ∧
    Resolve client mapper VerbAll res sub = .ok d.name ∧
    (verb ≠ VerbAll → verb ∉ d.verbs →
      Resolve client mapper verb res sub =
        .error (verbNotSupportedErr d.name verb d.verbs)) := by
  have hb : (res == ResourceAll) = false := by simp [hstar]
  refine ⟨isVerbSupportedBy_iff verb d, ?_, ?_⟩
  · unfold Resolve
    rw [hb, hres]
    simp [isVerbSupportedBy]
  · intro hw hmem
    have hforall : isVerbSupportedBy verb d = false := by
      cases h : isVerbSupportedBy verb d
      · rfl
      · rcases (isVerbSupportedBy_iff verb d).mp h with h1 | h1
        · exact absurd h1 hw
        · exact absurd h1 hmem
    unfold Resolve
    rw [hb, hres]
    simp [hforall]

/-- C7 witness: persistentvolumes advertises get/list/delete; the
wildcard verb succeeds and "patch" is rejected naming the verbs. -/
theorem resolve_verb_check_witness :
    ("pv" ≠ ResourceAll ∧
      resourceFor fixtureClient failMapper "pv" "" =
        .ok ⟨"persistentvolumes", ["pv"], ["get", "list", "delete"]⟩) ∧
    ((isVerbSupportedBy "patch" ⟨"persistentvolumes", ["pv"], ["get", "list", "delete"]⟩ = true ↔
        "patch" = VerbAll ∨ "patch" ∈ ["get", "list", "delete"]) ∧
      Resolve fixtureClient failMapper VerbAll "pv" "" = .ok "persistentvolumes" ∧
      ("patch" ≠ VerbAll → "patch" ∉ ["get", "list", "delete"] →
        Resolve fixtureClient failMapper "patch" "pv" "" =
          .error (verbNotSupportedErr "persistentvolumes" "patch" ["get", "list", "delete"]))) :=
  ⟨⟨by decide, by decide⟩,
    resolve_verb_check fixtureClient failMapper "patch" "pv" "" _ (by decide) (by decide)⟩

/-- C8: a resource token absent from the index, also after the
REST-mapping fallback, makes `Resolve` fail with the error naming the
exact original token, with "/subResource" appended when one was given. -/
theorem resolve_unknown_token (client : DiscoveryClient) (mapper : RESTMapper)
    (verb res sub : String) (idx : Index)
    (hstar : res ≠ ResourceAll)
    (hidx : indexResources client = .ok idx)
    (hmiss : mapLookup idx res = none)
    (hfall : ∀ g, mapper res = .ok g → mapLookup idx g = none) :
    Resolve client mapper verb res sub =
      .error (noResourceTypeErr (if sub ≠ "" then res ++ "/" ++ sub else res)) := by
  have hlook : ∃ e, lookupResource mapper idx res = .error e := by
    cases hm : mapper res with
    | error e =>
      refine ⟨e, ?_⟩
      simp only [lookupResource, hmiss, hm]
    | ok g =>
      refine ⟨"not found \"" ++ res ++ "\"", ?_⟩
      simp only [lookupResource, hmiss, hm, hfall g hm]
  obtain ⟨e, he⟩ := hlook
  have hrf : resourceFor client mapper res sub = .error e := by
    simp only [resourceFor, hidx, he]
  have hb : (res == ResourceAll) = false := by simp [hstar]
  unfold Resolve
  rw [hb, hrf]
  rfl

/-- C8 witness: "widgets" is unknown to the fixture index and the REST
mapper; with sub-resource "status" the error names "widgets/status". -/
theorem resolve_unknown_token_witness :
    ("widgets" ≠ ResourceAll ∧
      indexResources fixtureClient = .ok fixtureIndex ∧
      mapLookup fixtureIndex "widgets" = none ∧
      (∀ g, failMapper "widgets" = .ok g → mapLookup fixtureIndex g = none)) ∧
    Resolve fixtureClient failMapper "get" "widgets" "status" =
      .error (noResourceTypeErr
        (if "status" ≠ "" then "widgets" ++ "/" ++ "status" else "widgets")) :=
  ⟨⟨by decide, by decide, by decide, fun g h => Except.noConfusion h⟩,
    resolve_unknown_token fixtureClient failMapper "get" "widgets" "status" fixtureIndex
      (by decide) (by decide) (by decide) (fun g h => Except.noConfusion h)⟩

/-- C1 counterexample: when `ServerGroups` fails at the transport level,
the error `Resolve` returns to its caller is the "no such resource type"
(ResourceNotFound) error, not the wrapped discovery error the claim
promises. -/
theorem resolve_discovery_failure_counterexample :
    Resolve brokenClient failMapper "list" "pods" "" =
      .error (noResourceTypeErr "pods") ∧
    noResourceTypeErr "pods" ≠ "getting API groups: connection refused" := by
  exact ⟨by decide, by decide⟩

/-- C1 (amended): a transport-level discovery failure is wrapped with the
context stating which discovery step failed — "getting API groups" for
`ServerGroups`, "getting resources for API group" for
`ServerResourcesForGroupVersion` — by `indexResources`, and `resourceFor`
propagates the wrapped error; `Resolve` itself, however, replaces any
`resourceFor` failure, a discovery failure included, with the
ResourceNotFound ("no such resource type") error before returning to its
caller. -/
theorem resolve_discovery_failure_wrapped (c c' : DiscoveryClient)
    (mapper : RESTMapper) (verb res sub e e' : String) (sg : APIGroup)
    (hstar : res ≠ ResourceAll)
    (hg : c.serverGroups = .error e)
    (hg' : c'.serverGroups = .ok [sg])
    (hv : sg.versions = [sg.preferredVersion])
    (hf : c'.serverResourcesForGroupVersion sg.preferredVersion = .error e') :
    indexResources c = .error ("getting API groups: " ++ e) ∧
    resourceFor c mapper res sub = .error ("getting API groups: " ++ e) ∧
    Resolve c mapper verb res sub =
      .error (noResourceTypeErr (if sub ≠ "" then res ++ "/" ++ sub else res)) ∧
    indexResources c' = .error ("getting resources for API group: " ++ e') := by
  have h1 : indexResources c = .error ("getting API groups: " ++ e) := by
    simp only [indexResources, hg]
  have h2 : resourceFor c mapper res sub = .error ("getting API groups: " ++ e) := by
    simp only [resourceFor, h1]
  have hb : (res == ResourceAll) = false := by simp [hstar]
  refine ⟨h1, h2, ?_, ?_⟩
  · unfold Resolve
    rw [hb, h2]
    rfl
  · simp only [indexResources, hg', indexGroups, hv, indexVersions, beq_self_eq_true, hf]
    rfl

/-- C1 witness: a concrete client whose `ServerGroups` fails with
"connection refused" and one whose resource fetch fails with "boom". -/
theorem resolve_discovery_failure_wrapped_witness :
    ("pods" ≠ ResourceAll ∧
      brokenClient.serverGroups = .error "connection refused" ∧
      (DiscoveryClient.mk (.ok [⟨["v1"], "v1"⟩]) (fun _ => .error "boom")).serverGroups =
        .ok [⟨["v1"], "v1"⟩] ∧
      APIGroup.versions ⟨["v1"], "v1"⟩ = [APIGroup.preferredVersion ⟨["v1"], "v1"⟩] ∧
      (DiscoveryClient.mk (.ok [⟨["v1"], "v1"⟩])
          (fun _ => .error "boom")).serverResourcesForGroupVersion
        (APIGroup.preferredVersion ⟨["v1"], "v1"⟩) = .error "boom") ∧
    (indexResources brokenClient = .error ("getting API groups: " ++ "connection refused") ∧
      resourceFor brokenClient failMapper "pods" "" =
        .error ("getting API groups: " ++ "connection refused") ∧
      Resolve brokenClient failMapper "list" "pods" "" =
        .error (noResourceTypeErr (if "" ≠ "" then "pods" ++ "/" ++ "" else "pods")) ∧
      indexResources (DiscoveryClient.mk (.ok [⟨["v1"], "v1"⟩]) (fun _ => .error "boom")) =
        .error ("getting resources for API group: " ++ "boom")) :=
  ⟨⟨by decide, by decide, by decide, by decide, by decide⟩,
    resolve_discovery_failure_wrapped brokenClient
      (DiscoveryClient.mk (.ok [⟨["v1"], "v1"⟩]) (fun _ => .error "boom"))
      failMapper "list" "pods" "" "connection refused" "boom" ⟨["v1"], "v1"⟩
      (by decide) (by decide) (by decide) (by decide) (by decide)⟩

/-- C10: when two or more enumerated resources share an index key, the
key is bound to the descriptor of the occurrence processed last in the
enumeration order of groups and resources; earlier descriptors for the
key are silently shadowed and every key maps to exactly one descriptor. -/
theorem index_last_occurrence_wins (client : DiscoveryClient) (gs : List APIGroup)
    (idx : Index) (xs ys : List APIResource) (r : APIResource) (k : String)
    (hg : client.serverGroups = .ok gs)
    (hidx : indexResources client = .ok idx)
    (henum : enumeratedResources client gs = xs ++ r :: ys)
    (hk : k ∈ keyList r)
    (hlast : ∀ r' ∈ ys, k ∉ keyList r') :
    mapLookup idx k = some r := by
  rw [indexResources_ok client gs idx hg hidx, henum]
  exact mapLookup_foldl_insertResource_last xs ys r [] k hk hlast

/-- C10 witness: firstkinds and secondkinds both carry the short name
"fk"; the index binds "fk" to secondkinds, the occurrence processed
last, making firstkinds unreachable under that key. -/
theorem index_last_occurrence_wins_witness :
    (collisionClient.serverGroups = .ok [⟨["v1"], "v1"⟩] ∧
      indexResources collisionClient = .ok collisionIndex ∧
      enumeratedResources collisionClient [⟨["v1"], "v1"⟩] =
        [⟨"firstkinds", ["fk"], ["get"]⟩] ++ ⟨"secondkinds", ["fk"], ["get"]⟩ :: [] ∧
      "fk" ∈ keyList ⟨"secondkinds", ["fk"], ["get"]⟩ ∧
      (∀ r' ∈ ([] : List APIResource), "fk" ∉ keyList r')) ∧
    mapLookup collisionIndex "fk" = some ⟨"secondkinds", ["fk"], ["get"]⟩ :=
  ⟨⟨by decide, by decide, by decide, by decide, by decide⟩,
    index_last_occurrence_wins collisionClient [⟨["v1"], "v1"⟩] collisionIndex
      [⟨"firstkinds", ["fk"], ["get"]⟩] [] ⟨"secondkinds", ["fk"], ["get"]⟩ "fk"
      (by decide) (by decide) (by decide) (by decide) (by decide)⟩

/-- C5 counterexample: firstkinds is a discovered resource with short
name "fk" and supported verb "get", yet resolving "fk" returns the later
colliding resource's canonical name "secondkinds", not "firstkinds". -/
theorem resolve_canonical_name_counterexample :
    collisionClient.serverResourcesForGroupVersion "v1" =
      .ok [⟨"firstkinds", ["fk"], ["get"]⟩, ⟨"secondkinds", ["fk"], ["get"]⟩] ∧
    "fk" ∈ APIResource.shortNames ⟨"firstkinds", ["fk"], ["get"]⟩ ∧
    isVerbSupportedBy "get" ⟨"firstkinds", ["fk"], ["get"]⟩ = true ∧
    Resolve collisionClient failMapper "get" "fk" "" = .ok "secondkinds" ∧
    (Except.ok "secondkinds" : Except String String) ≠ .ok "firstkinds" := by
  exact ⟨by decide, by decide, by decide, by decide, by decide⟩

/-- C5 (amended): for every resource in the discovery enumeration and
every one of its names (canonical plural name or short name) that is not
reused by a later-enumerated resource, `Resolve` with that name, a
supported verb and no sub-resource succeeds and returns the canonical
plural name; a name shadowed by a later occurrence resolves to the later
descriptor instead. -/
theorem resolve_yields_canonical_name (client : DiscoveryClient) (mapper : RESTMapper)
    (verb : String) (gs : List APIGroup) (idx : Index) (xs ys : List APIResource)
    (r : APIResource) (k : String)
    (hg : client.serverGroups = .ok gs)
    (hidx : indexResources client = .ok idx)
    (henum : enumeratedResources client gs = xs ++ r :: ys)
    (hk : k ∈ keyList r)
    (hlast : ∀ r' ∈ ys, k ∉ keyList r')
    (hstar : k ≠ ResourceAll)
    (hverb : isVerbSupportedBy verb r = true) :
    Resolve client mapper verb k "" = .ok r.name := by
  have hlook : mapLookup idx k = some r := by
    rw [indexResources_ok client gs idx hg hidx, henum]
    exact mapLookup_foldl_insertResource_last xs ys r [] k hk hlast
  have hlr : lookupResource mapper idx k = .ok r := by
    simp only [lookupResource, hlook]
  have hrf : resourceFor client mapper k "" = .ok r := by
    simp only [resourceFor, hidx, hlr]
    rfl
  have hb : (k == ResourceAll) = false := by simp [hstar]
  unfold Resolve
  rw [hb, hrf]
  simp [hverb]

/-- C5 witness: the services resource with canonical name "services" and
short name "svc": resolving "svc" with verb "get" yields "services". -/
theorem resolve_yields_canonical_name_witness :
    (fixtureClient.serverGroups = .ok [⟨["v1"], "v1"⟩] ∧
      indexResources fixtureClient = .ok fixtureIndex ∧
      enumeratedResources fixtureClient [⟨["v1"], "v1"⟩] =
        [⟨"persistentvolumes", ["pv"], ["get", "list", "delete"]⟩,
         ⟨"pods", ["po"], ["get", "list"]⟩, ⟨"pods/log", [], ["get"]⟩] ++
          ⟨"services", ["svc"], ["get", "list"]⟩ :: [] ∧
      "svc" ∈ keyList ⟨"services", ["svc"], ["get", "list"]⟩ ∧
      (∀ r' ∈ ([] : List APIResource), "svc" ∉ keyList r') ∧
      "svc" ≠ ResourceAll ∧
      isVerbSupportedBy "get" ⟨"services", ["svc"], ["get", "list"]⟩ = true) ∧
    Resolve fixtureClient failMapper "get" "svc" "" = .ok "services" :=
  ⟨⟨by decide, by decide, by decide, by decide, by decide, by decide, by decide⟩,
    resolve_yields_canonical_name fixtureClient failMapper "get" [⟨["v1"], "v1"⟩]
      fixtureIndex
      [⟨"persistentvolumes", ["pv"], ["get", "list", "delete"]⟩,
       ⟨"pods", ["po"], ["get", "list"]⟩, ⟨"pods/log", [], ["get"]⟩] []
      ⟨"services", ["svc"], ["get", "list"]⟩ "svc"
      (by decide) (by decide) (by decide) (by decide) (by decide) (by decide) (by decide)⟩

/-- C9: every descriptor reachable in the index comes from some group's
preferred version: index membership implies the descriptor was fetched
for a listed group version equal to that group's preferred version, so
no descriptor of a non-preferred version is ever indexed. -/
theorem index_preferred_version_only (client : DiscoveryClient) (gs : List APIGroup)
    (idx : Index) (k : String) (d : APIResource)
    (hg : client.serverGroups = .ok gs)
    (hidx : indexResources client = .ok idx)
    (hk : mapLookup idx k = some d) :
    ∃ sg ∈ gs, sg.preferredVersion ∈ sg.versions ∧
      ∃ rs, client.serverResourcesForGroupVersion sg.preferredVersion = .ok rs ∧
        d ∈ rs := by
  rw [indexResources_ok client gs idx hg hidx] at hk
  rcases mapLookup_foldl_insertResource_mem k d _ [] hk with hmem | hnil
  · simp only [enumeratedResources] at hmem
    rcases List.mem_flatMap.mp hmem with ⟨sg, hsg, hd⟩
    simp only [groupResources] at hd
    rcases List.mem_flatMap.mp hd with ⟨v, hv, hdv⟩
    by_cases hp : (v == sg.preferredVersion) = true
    · rw [if_pos hp] at hdv
      have hveq : v = sg.preferredVersion := by simpa using hp
      subst hveq
      cases hfv : client.serverResourcesForGroupVersion sg.preferredVersion with
      | error err =>
        rw [show fetchedResources client sg.preferredVersion = [] from by
          simp [fetchedResources, hfv]] at hdv
        exact absurd hdv (List.not_mem_nil d)
      | ok rs =>
        rw [show fetchedResources client sg.preferredVersion = rs from by
          simp [fetchedResources, hfv]] at hdv
        exact ⟨sg, hsg, hv, rs, hfv, hdv⟩
    · rw [if_neg hp] at hdv
      exact absurd hdv (List.not_mem_nil d)
  · rw [mapLookup_nil] at hnil
    cases hnil

/-- C9 witness: a group preferring v1 over v1beta1; the indexed
descriptor "widgets" is traced back to the preferred version v1. -/
theorem index_preferred_version_only_witness :
    (twoVersionClient.serverGroups = .ok [⟨["v1beta1", "v1"], "v1"⟩] ∧
      indexResources twoVersionClient =
        .ok [("wd", ⟨"widgets", ["wd"], ["get"]⟩),
             ("widgets", ⟨"widgets", ["wd"], ["get"]⟩)] ∧
      mapLookup [("wd", ⟨"widgets", ["wd"], ["get"]⟩),
        ("widgets", ⟨"widgets", ["wd"], ["get"]⟩)] "widgets" =
        some ⟨"widgets", ["wd"], ["get"]⟩) ∧
    (∃ sg ∈ [(⟨["v1beta1", "v1"], "v1"⟩ : APIGroup)],
      sg.preferredVersion ∈ sg.versions ∧
        ∃ rs, twoVersionClient.serverResourcesForGroupVersion sg.preferredVersion =
            .ok rs ∧ (⟨"widgets", ["wd"], ["get"]⟩ : APIResource) ∈ rs) :=
  ⟨⟨by decide, by decide, by decide⟩,
    index_preferred_version_only twoVersionClient [⟨["v1beta1", "v1"], "v1"⟩]
      [("wd", ⟨"widgets", ["wd"], ["get"]⟩), ("widgets", ⟨"widgets", ["wd"], ["get"]⟩)]
      "widgets" ⟨"widgets", ["wd"], ["get"]⟩
      (by decide) (by decide) (by decide)⟩

/-- C6 counterexample: the short name "po" resolves to canonical "pods",
the compound key "pods/status" is absent, and the failure names the
original token's compound "po/status", not the canonical compound
"pods/status" the claim announces. -/
theorem resolve_subresource_counterexample :
    Resolve fixtureClient failMapper "get" "po" "status" =
      .error (noResourceTypeErr "po/status") ∧
    Resolve fixtureClient failMapper "get" "po" "status" ≠
      .error (noResourceTypeErr "pods/status") := by
  exact ⟨by decide, by decide⟩

/-- C6 (amended): with a non-empty sub-resource the index is re-looked-up
with the key `<canonicalName>/<subResource>`; when that lookup fails the
call fails with the "no such resource type" error naming the original
resource token joined with the sub-resource by "/" (not the canonical
name), and when it succeeds the verb-support check runs against the
sub-resource's descriptor, not the parent resource's descriptor. -/
theorem resolve_subresource_lookup (client : DiscoveryClient) (mapper : RESTMapper)
    (verb res sub : String) (idx : Index) (parent : APIResource)
    (hstar : res ≠ ResourceAll) (hsub : sub ≠ "")
    (hidx : indexResources client = .ok idx)
    (hpar : lookupResource mapper idx res = .ok parent) :
    (mapLookup idx (parent.name ++ "/" ++ sub) = none →
      Resolve client mapper verb res sub =
        .error (noResourceTypeErr (res ++ "/" ++ sub))) ∧
    (∀ subd, mapLookup idx (parent.name ++ "/" ++ sub) = some subd →
      Resolve client mapper verb res sub =
        (if isVerbSupportedBy verb subd then .ok subd.name
         else .error (verbNotSupportedErr subd.name verb subd.verbs))) := by
  have hb : (res == ResourceAll) = false := by simp [hstar]
  constructor
  · intro hnone
    have hrf : resourceFor client mapper res sub =
        .error ("not found \"" ++ (parent.name ++ "/" ++ sub) ++ "\"") := by
      simp only [resourceFor, hidx, hpar, if_pos hsub, lookupSubResource, hnone]
    unfold Resolve
    rw [hb, hrf]
    simp [hsub]
  · intro subd hsome
    have hrf : resourceFor client mapper res sub = .ok subd := by
      simp only [resourceFor, hidx, hpar, if_pos hsub, lookupSubResource, hsome]
    unfold Resolve
    rw [hb, hrf]
    by_cases hv : isVerbSupportedBy verb subd = true
    · simp [hv]
    · simp [hv]

/-- C6 witness: "po" resolves to parent "pods"; the compound key
"pods/log" holds the sub-resource descriptor, whose verb set (only
"get") is what the verb check consults. -/
theorem resolve_subresource_lookup_witness :
    ("po" ≠ ResourceAll ∧ "log" ≠ "" ∧
      indexResources fixtureClient = .ok fixtureIndex ∧
      lookupResource failMapper fixtureIndex "po" = .ok ⟨"pods", ["po"], ["get", "list"]⟩) ∧
    ((mapLookup fixtureIndex (APIResource.name ⟨"pods", ["po"], ["get", "list"]⟩ ++ "/" ++ "log") = none →
        Resolve fixtureClient failMapper "list" "po" "log" =
          .error (noResourceTypeErr ("po" ++ "/" ++ "log"))) ∧
      (∀ subd,
        mapLookup fixtureIndex (APIResource.name ⟨"pods", ["po"], ["get", "list"]⟩ ++ "/" ++ "log") =
          some subd →
        Resolve fixtureClient failMapper "list" "po" "log" =
          (if isVerbSupportedBy "list" subd then .ok subd.name
           else .error (verbNotSupportedErr subd.name "list" subd.verbs)))) :=
  ⟨⟨by decide, by decide, by decide, by decide⟩,
    resolve_subresource_lookup fixtureClient failMapper "list" "po" "log" fixtureIndex
      ⟨"pods", ["po"], ["get", "list"]⟩ (by decide) (by decide) (by decide) (by decide)⟩

/-- C2: in resource mode with the verb and resource covered by the rule,
a rule with non-empty resourceNames matches exactly the queries whose
resourceName is a member of the list — in particular a query whose
resourceName is empty does not match (the empty string not being a listed
name) — and a rule with empty resourceNames matches regardless of the
query's resourceName. -/
theorem policy_rule_resource_names (q : ActionQuery) (rule : PolicyRule)
    (hurl : q.nonResourceURL = "")
    (hv : q.verb ∈ rule.verbs ∨ VerbAll ∈ rule.verbs)
    (hr : q.resource ∈ rule.resources ∨ ResourceAll ∈ rule.resources) :
    (rule.resourceNames ≠ [] → q.resourceName = "" → "" ∉ rule.resourceNames →
      policyRuleMatches q rule = false) ∧
    (rule.resourceNames ≠ [] → q.resourceName ∈ rule.resourceNames →
      policyRuleMatches q rule = true) ∧
    (rule.resourceNames ≠ [] → q.resourceName ∉ rule.resourceNames →
      policyRuleMatches q rule = false) ∧
    (rule.resourceNames = [] → policyRuleMatches q rule = true) := by
  have hred : policyRuleMatches q rule =
      (rule.resourceNames.isEmpty || rule.resourceNames.contains q.resourceName) := by
    unfold policyRuleMatches
    rw [if_neg (by simp [hurl])]
    rcases hv with h1 | h1 <;> rcases hr with h2 | h2 <;> simp [h1, h2]
  refine ⟨?_, ?_, ?_, ?_⟩
  · intro hne hq hnm
    rw [hred, hq]
    simp [hne, hnm]
  · intro hne hm
    rw [hred]
    simp [hm]
  · intro hne hnm
    rw [hred]
    simp [hne, hnm]
  · intro hempty
    rw [hred, hempty]
    simp

/-- C2 witness: the repository's scenarios E/G-style rule restricted to
names mongodb and nginx, queried for services/mongodb. -/
theorem policy_rule_resource_names_witness :
    ((ActionQuery.nonResourceURL ⟨"get", "services", "mongodb", ""⟩ = "") ∧
      ("get" ∈ ["get", "list"] ∨ VerbAll ∈ ["get", "list"]) ∧
      ("services" ∈ ["services"] ∨ ResourceAll ∈ ["services"])) ∧
    ((["mongodb", "nginx"] ≠ ([] : List String) → "mongodb" = "" →
        "" ∉ ["mongodb", "nginx"] →
        policyRuleMatches ⟨"get", "services", "mongodb", ""⟩
          ⟨["get", "list"], ["services"], ["mongodb", "nginx"], []⟩ = false) ∧
      (["mongodb", "nginx"] ≠ ([] : List String) → "mongodb" ∈ ["mongodb", "nginx"] →
        policyRuleMatches ⟨"get", "services", "mongodb", ""⟩
          ⟨["get", "list"], ["services"], ["mongodb", "nginx"], []⟩ = true) ∧
      (["mongodb", "nginx"] ≠ ([] : List String) → "mongodb" ∉ ["mongodb", "nginx"] →
        policyRuleMatches ⟨"get", "services", "mongodb", ""⟩
          ⟨["get", "list"], ["services"], ["mongodb", "nginx"], []⟩ = false) ∧
      (["mongodb", "nginx"] = ([] : List String) →
        policyRuleMatches ⟨"get", "services", "mongodb", ""⟩
          ⟨["get", "list"], ["services"], ["mongodb", "nginx"], []⟩ = true)) :=
  ⟨⟨rfl, by decide, by decide⟩,
    policy_rule_resource_names ⟨"get", "services", "mongodb", ""⟩
      ⟨["get", "list"], ["services"], ["mongodb", "nginx"], []⟩
      rfl (by decide) (by decide)⟩

/-- C3: the two matching modes are disjoint: a rule with empty resources
matches no resource-mode query, a rule with empty nonResourceURLs matches
no query carrying a non-resource URL, and when the query's nonResourceURL
is set the rule's resources and resourceNames are ignored entirely (two
rules agreeing on verbs and nonResourceURLs match identically). -/
theorem policy_rule_modes_disjoint (q : ActionQuery) (rule r1 r2 : PolicyRule) :
    (rule.resources = [] → q.nonResourceURL = "" → policyRuleMatches q rule = false) ∧
    (rule.nonResourceURLs = [] → q.nonResourceURL ≠ "" →
      policyRuleMatches q rule = false) ∧
    (q.nonResourceURL ≠ "" → r1.verbs = r2.verbs →
      r1.nonResourceURLs = r2.nonResourceURLs →
      policyRuleMatches q r1 = policyRuleMatches q r2) := by
  refine ⟨?_, ?_, ?_⟩
  · intro hres hurl
    unfold policyRuleMatches
    rw [if_neg (by simp [hurl])]
    simp [hres]
  · intro hnru hurl
    unfold policyRuleMatches
    rw [if_pos hurl]
    simp [hnru]
  · intro hurl hverbs hnru
    unfold policyRuleMatches
    rw [if_pos hurl, if_pos hurl, hverbs, hnru]

/-- C3 witness: a nonResourceURLs-only rule against a resource query, a
resources-only rule against a URL query, and a URL query on which the
rule's resources/resourceNames fields are irrelevant. -/
theorem policy_rule_modes_disjoint_witness :
    policyRuleMatches ⟨"get", "services", "", ""⟩ ⟨["get"], [], [], ["/logs"]⟩ = false ∧
    policyRuleMatches ⟨"get", "", "", "/logs"⟩ ⟨["get"], ["services"], [], []⟩ = false ∧
    policyRuleMatches ⟨"get", "a", "b", "/logs"⟩ ⟨["get"], ["x"], ["y"], ["/logs"]⟩ =
      policyRuleMatches ⟨"get", "a", "b", "/logs"⟩ ⟨["get"], [], [], ["/logs"]⟩ :=
  ⟨(policy_rule_modes_disjoint ⟨"get", "services", "", ""⟩ ⟨["get"], [], [], ["/logs"]⟩
      ⟨[], [], [], []⟩ ⟨[], [], [], []⟩).1 rfl rfl,
   (policy_rule_modes_disjoint ⟨"get", "", "", "/logs"⟩ ⟨["get"], ["services"], [], []⟩
      ⟨[], [], [], []⟩ ⟨[], [], [], []⟩).2.1 rfl (by decide),
   (policy_rule_modes_disjoint ⟨"get", "a", "b", "/logs"⟩ ⟨[], [], [], []⟩
      ⟨["get"], ["x"], ["y"], ["/logs"]⟩ ⟨["get"], [], [], ["/logs"]⟩).2.2
      (by decide) rfl rfl⟩

/-- C4: the role reference index treats scope as part of identity and
answers membership independently of insertion order: a match holds iff
some inserted identity has the reference's name and a cluster-scope flag
equal to "the reference's kind is the literal ClusterRole"; permuting the
insertions does not change any answer; a namespaced Role "edit" never
satisfies a ClusterRole reference "edit" (nor conversely); and any kind
other than the literal "ClusterRole" is treated as a namespaced-Role
reference. -/
theorem role_index_scoped_identity (idx idx2 : RolesIndex) (rr : RoleRef)
    (hperm : idx.Perm idx2) :
    (matchRoleRef idx rr = true ↔
      ∃ e ∈ idx, e.name = rr.name ∧ e.isClusterRole = (rr.kind == "ClusterRole")) ∧
    matchRoleRef idx rr = matchRoleRef idx2 rr ∧
    (matchRoleRef [⟨"edit", false⟩] ⟨"ClusterRole", "edit"⟩ = false ∧
      matchRoleRef [⟨"edit", true⟩] ⟨"Role", "edit"⟩ = false) ∧
    (rr.kind ≠ "ClusterRole" →
      matchRoleRef idx rr = matchRoleRef idx ⟨"Role", rr.name⟩) := by
  have hchar : ∀ (l : RolesIndex) (r : RoleRef), (matchRoleRef l r = true ↔
      ∃ e ∈ l, e.name = r.name ∧ e.isClusterRole = (r.kind == "ClusterRole")) := by
    intro l r
    unfold matchRoleRef
    rw [List.any_eq_true]
    constructor
    · rintro ⟨e, he, hp⟩
      rw [Bool.and_eq_true] at hp
      exact ⟨e, he, by simpa using hp.1, by simpa using hp.2⟩
    · rintro ⟨e, he, h1, h2⟩
      exact ⟨e, he, by simp [h1, h2]⟩
  refine ⟨hchar idx rr, ?_, ⟨by decide, by decide⟩, ?_⟩
  · rw [Bool.eq_iff_iff, hchar idx rr, hchar idx2 rr]
    constructor
    · rintro ⟨e, he, h⟩
      exact ⟨e, hperm.mem_iff.mp he, h⟩
    · rintro ⟨e, he, h⟩
      exact ⟨e, hperm.mem_iff.mpr he, h⟩
  · intro hk
    have hkb : (rr.kind == "ClusterRole") = false := by simp [hk]
    have h2 : (("Role" : String) == "ClusterRole") = false := by decide
    unfold matchRoleRef
    simp only [hkb, h2]

/-- C4 witness: a two-entry index and its swap; the reference of kind
"Something else" (the repository's `TestMatch` reference) is treated as a
namespaced-Role reference. -/
theorem role_index_scoped_identity_witness :
    List.Perm [RoleIdentity.mk "edit" false, ⟨"admin", true⟩]
      [⟨"admin", true⟩, ⟨"edit", false⟩] ∧
    ((matchRoleRef [⟨"edit", false⟩, ⟨"admin", true⟩] ⟨"Something else", "edit"⟩ = true ↔
        ∃ e ∈ [RoleIdentity.mk "edit" false, ⟨"admin", true⟩], e.name = "edit" ∧
          e.isClusterRole = (("Something else" : String) == "ClusterRole")) ∧
      matchRoleRef [⟨"edit", false⟩, ⟨"admin", true⟩] ⟨"Something else", "edit"⟩ =
        matchRoleRef [⟨"admin", true⟩, ⟨"edit", false⟩] ⟨"Something else", "edit"⟩ ∧
      (matchRoleRef [⟨"edit", false⟩] ⟨"ClusterRole", "edit"⟩ = false ∧
        matchRoleRef [⟨"edit", true⟩] ⟨"Role", "edit"⟩ = false) ∧
      (("Something else" : String) ≠ "ClusterRole" →
        matchRoleRef [⟨"edit", false⟩, ⟨"admin", true⟩] ⟨"Something else", "edit"⟩ =
          matchRoleRef [⟨"edit", false⟩, ⟨"admin", true⟩] ⟨"Role", "edit"⟩)) :=
  ⟨by decide,
    role_index_scoped_identity [⟨"edit", false⟩, ⟨"admin", true⟩]
      [⟨"admin", true⟩, ⟨"edit", false⟩] ⟨"Something else", "edit"⟩ (by decide)⟩

end KubectlWhoCan
